import Mathlib

/-!
Verification development for the whisper-live streaming transcription server
(`src/websocket_server.py`).  The per-session state of `ServeClient` and its
operations (`add_frames`, the body of the `speech_to_text` loop,
`update_segments`, `fill_output`) are shallowly embedded below.  Python floats
are modelled as rationals; the audio buffer is modelled by its sample count
(no operation of the session ever inspects sample values, only shapes and
offsets).  Python string `strip`/`lower` and slicing semantics are embedded
explicitly (`pyStrip`, `pyLower`, `pyInt`, `pySliceLen`).
-/

namespace WhisperLive

/-- Sampling rate, from the source: `RATE = 16000`. -/
def RATE : ℕ := 16000

/-- Python whitespace characters, the set removed by `str.strip()`. -/
def pySpace (c : Char) : Bool :=
  c = ' ' || c = '\t' || c = '\n' || c = '\r' || c = '\x0b' || c = '\x0c'

/-- Python `str.strip()`: remove leading and trailing whitespace. -/
def pyStrip (s : String) : String :=
  String.mk (((s.data.dropWhile pySpace).reverse.dropWhile pySpace).reverse)

/-- ASCII lower-casing of one character (all strings in this development are
ASCII, where Python `str.lower()` agrees with this map). -/
def pyLowerChar (c : Char) : Char :=
  if 'A' ≤ c ∧ c ≤ 'Z' then Char.ofNat (c.toNat + 32) else c

/-- Python `str.lower()` on ASCII strings. -/
def pyLower (s : String) : String :=
  String.mk (s.data.map pyLowerChar)

/-- Python `int()` applied to a float: truncation toward zero.
`Int.tdiv` truncates toward zero, matching Python on a reduced fraction. -/
def pyInt (q : ℚ) : ℤ :=
  Int.tdiv q.num (q.den : ℤ)

/-- Length of the Python slice `a[start:]` of an array of length `L`,
including the negative-index semantics: a negative `start` counts from the
end and is clamped to the array. -/
def pySliceLen (start : ℤ) (L : ℕ) : ℕ :=
  if start < 0 then min L start.natAbs else L - start.toNat

/-- One segment as returned by the recognition engine: text plus start/end
offsets relative to the start of the submitted window. -/
structure Segment where
  text : String
  start : ℚ
  end_ : ℚ
deriving DecidableEq, Repr

/-- A committed transcript line as emitted to the client: absolute
start/end offsets plus text (the dicts built in `update_segments`). -/
structure TranscriptLine where
  start : ℚ
  end_ : ℚ
  text : String
deriving DecidableEq, Repr

/-- The per-session mutable state of `ServeClient`.  `bufLen` is
`frames_np` (None, or its sample count); the remaining fields carry the
names of the corresponding Python attributes. -/
structure SessionState where
  bufLen : Option ℕ
  frames_offset : ℚ
  timestamp_offset : ℚ
  text : List String
  current_out : String
  prev_out : String
  same_output_threshold : ℕ
  t_start : Option ℚ
deriving DecidableEq, Repr

/-- The state set up by `ServeClient.__init__`. -/
def initState : SessionState :=
  { bufLen := none
    frames_offset := 0
    timestamp_offset := 0
    text := []
    current_out := ""
    prev_out := ""
    same_output_threshold := 0
    t_start := none }

/-- Sample count of the retained buffer (0 when `frames_np is None`). -/
def bufSamples (s : SessionState) : ℕ :=
  s.bufLen.getD 0

/-! ### Output formatting (`fill_output` and its `textwrap` collaborator) -/

/-- Split a character list into maximal whitespace-free words (accumulator
holds the current word reversed). -/
def splitWSAux : List Char → List Char → List String
  | [], acc => if acc = [] then [] else [String.mk acc.reverse]
  | c :: cs, acc =>
    if pySpace c then
      if acc = [] then splitWSAux cs []
      else String.mk acc.reverse :: splitWSAux cs []
    else splitWSAux cs (c :: acc)

/-- The whitespace-separated words of a string. -/
def wordsOf (s : String) : List String :=
  splitWSAux s.data []

/-- One step of greedy line filling at a given width. -/
def wrapStep (width : ℕ) (acc : List String × String) (w : String) :
    List String × String :=
  if acc.2 = "" then (acc.1, w)
  else if (acc.2 ++ " " ++ w).length ≤ width then (acc.1, acc.2 ++ " " ++ w)
  else (acc.1 ++ [acc.2], w)

/-- Greedy word wrap of a word list at a given width. -/
def wrapFill (width : ℕ) (ws : List String) : List String :=
  let r := ws.foldl (wrapStep width) ([], "")
  if r.2 = "" then r.1 else r.1 ++ [r.2]

/-- Modelled from the spec: the source calls the Python standard-library
`textwrap.TextWrapper(width=50).wrap`, which is not part of this repository;
the spec describes it as word-wrap at a fixed column width of 50 characters,
embedded here as greedy word wrapping (long-word breaking is not modelled;
no input in this development has a word beyond the width). -/
def wrap50 (t : String) : List String :=
  wrapFill 50 (wordsOf t)

/-- Python `l[-2:]`: the last two elements (the whole list when shorter). -/
def lastTwo (l : List String) : List String :=
  l.drop (l.length - 2)

/-- Python `" ".join(l)`. -/
def joinSp : List String → String
  | [] => ""
  | [w] => w
  | w :: ws => w ++ " " ++ joinSp ws

/-- `ServeClient.fill_output`: render the last (up to) two committed entries,
discarding everything before an empty-string pause sentinel, concatenated
with the current incomplete segment, wrapped to 50 columns, keeping the last
two wrapped lines joined by a space.  (`pick_previous_segments = 2`.) -/
def fill_output (text : List String) (output : String) : String :=
  let pick_prev := min text.length 2
  let t := (text.drop (text.length - pick_prev)).foldl
      (fun acc seg => if seg = "" then "" else acc ++ seg) ""
  joinSp (lastTwo (wrap50 (t ++ output)))

/-! ### Buffer ingestion (`add_frames`) -/

/-- `ServeClient.add_frames`: if the buffer holds more than `45*RATE`
samples, advance `frames_offset` by `45.0` and drop the first `30*RATE`
samples; then concatenate the incoming frame (of `n` samples). -/
def add_frames (n : ℕ) (s : SessionState) : SessionState :=
  let s1 :=
    match s.bufLen with
    | some L =>
      if 45 * RATE < L then
        { s with frames_offset := s.frames_offset + 45
                 bufLen := some (L - 30 * RATE) }
      else s
    | none => s
  match s1.bufLen with
  | none => { s1 with bufLen := some n }
  | some L => { s1 with bufLen := some (L + n) }

/-- Number of samples discarded by the eviction step of the next
`add_frames` call on state `s`. -/
def evictedSamples (s : SessionState) : ℕ :=
  match s.bufLen with
  | some L => if 45 * RATE < L then 30 * RATE else 0
  | none => 0

/-! ### The stabilizer (`update_segments`) -/

/-- `ServeClient.update_segments`: commit all segments but the last, track
the repeated-output counter on the incomplete tail, promote the tail after
more than 5 repeats, and advance `timestamp_offset`.  Returns the new state,
the display text (`fill_output` of the final `current_out`), and the list of
newly committed transcript lines.  The source indexes `segments[-1]` and is
only ever called with a non-empty list; the `getLastD` default is never
reached in such calls. -/
def update_segments (segments : List Segment) (duration : ℚ)
    (s : SessionState) : SessionState × String × List TranscriptLine :=
  let completes := segments.dropLast
  let text1 := s.text ++ completes.map (fun g => g.text)
  let transcript1 : List TranscriptLine := completes.map (fun g =>
    { start := s.timestamp_offset + g.start
      end_ := s.timestamp_offset + min duration g.end_
      text := g.text })
  let offset1 : Option ℚ := (completes.getLast?).map (fun g => min duration g.end_)
  let current1 := (segments.getLastD { text := "", start := 0, end_ := 0 }).text
  let thr1 : ℕ :=
    if pyStrip current1 = pyStrip s.prev_out ∧ current1 ≠ "" then
      s.same_output_threshold + 1
    else 0
  if 5 < thr1 then
    let commit := text1 = [] ∨
      pyLower (pyStrip (text1.getLastD "")) ≠ pyLower (pyStrip current1)
    let text2 := if commit then text1 ++ [current1] else text1
    let transcript2 :=
      if commit then
        transcript1 ++ [{ start := s.timestamp_offset
                          end_ := s.timestamp_offset + duration
                          text := current1 }]
      else transcript1
    ({ s with text := text2
              current_out := ""
              same_output_threshold := 0
              timestamp_offset := s.timestamp_offset + duration },
     fill_output text2 "", transcript2)
  else
    ({ s with text := text1
              current_out := current1
              prev_out := current1
              same_output_threshold := thr1
              timestamp_offset := s.timestamp_offset + (offset1.getD 0) },
     fill_output text1 current1, transcript1)

/-! ### The recognition loop body (`speech_to_text`) -/

/-- The window-overflow guard at the top of the loop body: if the slice
`frames_np[int((timestamp_offset - frames_offset)*RATE):]` holds more than
`25*RATE` samples, jump `timestamp_offset` to `frames_offset + duration - 5`
where `duration` is the whole buffer's duration. -/
def cycleClip (s : SessionState) : SessionState :=
  match s.bufLen with
  | none => s
  | some L =>
    if 25 * RATE <
        pySliceLen (pyInt ((s.timestamp_offset - s.frames_offset) * (RATE : ℚ))) L then
      { s with timestamp_offset := s.frames_offset + (L : ℚ) / (RATE : ℚ) - 5 }
    else s

/-- The sample count of the window sliced for the engine:
`samples_take = max(0, (timestamp_offset - frames_offset)*RATE)` and then
`frames_np[int(samples_take):]`. -/
def windowSamples (s : SessionState) : ℕ :=
  match s.bufLen with
  | none => 0
  | some L =>
    pySliceLen (pyInt (max 0 ((s.timestamp_offset - s.frames_offset) * (RATE : ℚ)))) L

/-- Duration (seconds) of the window a cycle starting from `s` would
submit, after the overflow guard has run. -/
def cycleDuration (s : SessionState) : ℚ :=
  ((windowSamples (cycleClip s) : ℚ)) / (RATE : ℚ)

/-- The `len(result) == 0` branch of the loop: start/continue the silence
run (`t_start`), keep showing the previous output for 5 seconds, and append
one empty-string pause sentinel once the run exceeds 3 seconds while the
last committed line is non-empty.  `now` is the value of `time.time()`. -/
def emptyCycle (now : ℚ) (s : SessionState) : SessionState × String :=
  let tstart := s.t_start.getD now
  let output := if now - tstart < 5 then fill_output s.text "" else ""
  let s1 := { s with t_start := some tstart }
  if s1.text ≠ [] ∧ s1.text.getLastD "" ≠ "" ∧ 3 < now - tstart then
    ({ s1 with text := s1.text ++ [""] }, output)
  else (s1, output)

/-- One iteration of the `speech_to_text` loop, parameterized by the engine
result for this window and the wall-clock time `now`.  Skipped iterations
(`frames_np is None`, or a sub-second window) change no state except the
overflow guard's cursor jump, which the source performs before the duration
check. -/
def cycle (result : List Segment) (now : ℚ) (s : SessionState) :
    SessionState × String × List TranscriptLine :=
  match s.bufLen with
  | none => (s, "", [])
  | some _ =>
    let s1 := cycleClip s
    let dur := ((windowSamples s1 : ℚ)) / (RATE : ℚ)
    if dur < 1 then (s1, "", [])
    else if result = [] then
      let p := emptyCycle now s1
      (p.1, p.2, [])
    else
      update_segments result dur { s1 with t_start := none }

/-- A run of consecutive empty-result cycles at the given wall-clock
times. -/
def emptyRun (times : List ℚ) (s : SessionState) : SessionState :=
  times.foldl (fun s t => (emptyCycle t s).1) s

/-- Engine results are ordered spans inside the submitted window: every
segment has `0 ≤ start ≤ end ≤ duration`. -/
def SegsWF (result : List Segment) (dur : ℚ) : Prop :=
  ∀ g ∈ result, 0 ≤ g.start ∧ g.start ≤ g.end_ ∧ g.end_ ≤ dur

instance (result : List Segment) (dur : ℚ) : Decidable (SegsWF result dur) :=
  List.decidableBAll _ result

/-- Session states reachable from `__init__` by any interleaving of frame
ingestion (`add_frames`, the receiver thread) and recognition cycles (the
`speech_to_text` thread), with engine results constrained to well-formed
spans of the submitted window. -/
inductive Reachable : SessionState → Prop
  | init : Reachable initState
  | ingest (n : ℕ) {s : SessionState} : Reachable s → Reachable (add_frames n s)
  | cyc (result : List Segment) (now : ℚ) {s : SessionState}
      (hwf : SegsWF result (cycleDuration s)) :
      Reachable s → Reachable (cycle result now s).1

/-- One stabilizer cycle fed a single (hence incomplete) segment with the
given text, for a window of the given duration. -/
def stallStep (txt : String) (dur : ℚ) (s : SessionState) : SessionState :=
  (update_segments [{ text := txt, start := 0, end_ := dur }] dur s).1

/-- Modelled from the spec (OutputFormatter, §4.4): take the last two
committed entries, walk backward stopping at an empty-string sentinel,
concatenate the retained text with the provisional text, wrap at width 50,
and keep the last two wrapped lines joined by a space.  Compared against
the source's `fill_output`. -/
def specRender (committed : List String) (provisional : String) : String :=
  let lastK := committed.drop (committed.length - 2)
  let retained := String.join ((lastK.reverse.takeWhile (fun seg => seg != "")).reverse)
  joinSp (lastTwo (wrap50 (retained ++ provisional)))

/-! ### Helper lemmas -/

lemma pyInt_intCast (n : ℤ) : pyInt ((n : ℚ)) = n := by
  simp [pyInt, Rat.num_intCast, Rat.den_intCast]

lemma pyInt_natCast (m : ℕ) : pyInt ((m : ℚ)) = (m : ℤ) := by
  have h := pyInt_intCast (m : ℤ)
  rwa [Int.cast_natCast] at h

lemma add_frames_none (n : ℕ) (s : SessionState) (hb : s.bufLen = none) :
    add_frames n s = { s with bufLen := some n } := by
  unfold add_frames
  rw [hb]
  dsimp only
  rw [hb]

lemma add_frames_keep (n : ℕ) (s : SessionState) (L : ℕ)
    (hb : s.bufLen = some L) (h : ¬ 45 * RATE < L) :
    add_frames n s = { s with bufLen := some (L + n) } := by
  unfold add_frames
  rw [hb]
  dsimp only
  rw [if_neg h, hb]

lemma add_frames_evict (n : ℕ) (s : SessionState) (L : ℕ)
    (hb : s.bufLen = some L) (h : 45 * RATE < L) :
    add_frames n s = { s with frames_offset := s.frames_offset + 45,
                              bufLen := some (L - 30 * RATE + n) } := by
  unfold add_frames
  rw [hb]
  dsimp only
  rw [if_pos h]

lemma evictedSamples_le (s : SessionState) : evictedSamples s ≤ 30 * RATE := by
  rcases hb : s.bufLen with _ | L
  · simp [evictedSamples, hb]
  · simp only [evictedSamples, hb]
    split <;> omega

lemma cycleClip_bufLen (s : SessionState) : (cycleClip s).bufLen = s.bufLen := by
  rcases h : s.bufLen with _ | L
  · simp [cycleClip, h]
  · simp only [cycleClip, h]
    split <;> first | rfl | exact h

lemma cycleClip_prev_out (s : SessionState) :
    (cycleClip s).prev_out = s.prev_out := by
  rcases h : s.bufLen with _ | L
  · simp [cycleClip, h]
  · simp only [cycleClip, h]
    split <;> rfl

lemma cycleClip_thr (s : SessionState) :
    (cycleClip s).same_output_threshold = s.same_output_threshold := by
  rcases h : s.bufLen with _ | L
  · simp [cycleClip, h]
  · simp only [cycleClip, h]
    split <;> rfl

lemma cycleClip_current_out (s : SessionState) :
    (cycleClip s).current_out = s.current_out := by
  rcases h : s.bufLen with _ | L
  · simp [cycleClip, h]
  · simp only [cycleClip, h]
    split <;> rfl

lemma emptyCycle_prev_out (now : ℚ) (s : SessionState) :
    (emptyCycle now s).1.prev_out = s.prev_out := by
  simp only [emptyCycle]
  split <;> rfl

lemma emptyCycle_thr (now : ℚ) (s : SessionState) :
    (emptyCycle now s).1.same_output_threshold = s.same_output_threshold := by
  simp only [emptyCycle]
  split <;> rfl

lemma emptyCycle_current_out (now : ℚ) (s : SessionState) :
    (emptyCycle now s).1.current_out = s.current_out := by
  simp only [emptyCycle]
  split <;> rfl

/-- On an empty engine result the loop body leaves the repeat-stall state
(`prev_out`, `same_output_threshold`, `current_out`) untouched. -/
lemma cycle_nil_stall_state (now : ℚ) (s : SessionState) :
    (cycle [] now s).1.prev_out = s.prev_out ∧
    (cycle [] now s).1.same_output_threshold = s.same_output_threshold ∧
    (cycle [] now s).1.current_out = s.current_out := by
  rcases h : s.bufLen with _ | L
  · simp [cycle, h]
  · simp only [cycle, h]
    split
    · exact ⟨cycleClip_prev_out s, cycleClip_thr s, cycleClip_current_out s⟩
    · exact ⟨(emptyCycle_prev_out _ _).trans (cycleClip_prev_out s),
             (emptyCycle_thr _ _).trans (cycleClip_thr s),
             (emptyCycle_current_out _ _).trans (cycleClip_current_out s)⟩

/-! ### Claim C2 -/

/-- C2 counterexample: append a 1-second frame to a session whose buffer
holds 46 seconds (736000 samples).  The eviction keeps `736000 - 480000`
samples (16 s of old audio, not the most recent 30 s), and advances
`frames_offset` by 45 s although only 30 s of samples were evicted. -/
theorem claim2_cex :
    (add_frames 16000 (add_frames 736000 initState)).bufLen = some 272000 ∧
    (add_frames 16000 (add_frames 736000 initState)).frames_offset = 45 ∧
    272000 - 16000 ≠ 30 * RATE ∧
    ((736000 - 256000 : ℕ) : ℚ) / (RATE : ℚ) = 30 ∧
    (45 : ℚ) ≠ 30 := by
  refine ⟨rfl, ?_, by decide, by norm_num [RATE], by norm_num⟩
  show (0 : ℚ) + 45 = 45
  norm_num

/-- C2 (amended): when `append` finds the buffer longer than 45 s it always
drops exactly the oldest `30 * RATE` samples (leaving the previous length
minus 30 s, plus the new frame) and advances `bufferOriginOffset` by the
fixed amount 45 s — not by the evicted duration. -/
theorem claim2_thm (s : SessionState) (L n : ℕ) (hL : s.bufLen = some L)
    (h : 45 * RATE < L) :
    (add_frames n s).bufLen = some (L - 30 * RATE + n) ∧
    (add_frames n s).frames_offset = s.frames_offset + 45 := by
  rw [add_frames_evict n s L hL h]
  exact ⟨rfl, rfl⟩

/-- Witness for C2 at a concrete state. -/
theorem claim2_witness :
    (add_frames 16000 { initState with bufLen := some 736000 }).bufLen
      = some (736000 - 30 * RATE + 16000) ∧
    (add_frames 16000 { initState with bufLen := some 736000 }).frames_offset
      = initState.frames_offset + 45 :=
  claim2_thm { initState with bufLen := some 736000 } 736000 16000 rfl
    (by norm_num [RATE])

/-! ### Claim C8 -/

/-- C8 counterexample: forty-five 1-second frames fill the buffer to
exactly 45 s; the next 1-second append performs no eviction (the
high-water check is strict) and leaves 736000 samples = 46 s > 45 s
buffered immediately after the append. -/
theorem claim8_cex :
    bufSamples (add_frames 16000 (add_frames 720000 initState)) = 736000 ∧
    45 * RATE < 736000 ∧
    ((736000 : ℕ) : ℚ) / (RATE : ℚ) = 46 ∧ (45 : ℚ) < 46 := by
  refine ⟨rfl, by decide, by norm_num [RATE], by norm_num⟩

/-- C8 (amended): immediately after an `append` the buffered duration can
exceed 45 s by up to one frame: if every frame holds at most `F ≤ 30*RATE`
samples, then `45*RATE + F` samples (45 s plus one frame) is an invariant
bound preserved by `add_frames`. -/
theorem claim8_thm (s : SessionState) (n F : ℕ)
    (hs : bufSamples s ≤ 45 * RATE + F) (hn : n ≤ F) (hF : F ≤ 30 * RATE) :
    bufSamples (add_frames n s) ≤ 45 * RATE + F := by
  rcases hb : s.bufLen with _ | L
  · rw [add_frames_none n s hb]
    simp only [bufSamples, Option.getD_some]
    omega
  · rw [bufSamples, hb, Option.getD_some] at hs
    by_cases hL : 45 * RATE < L
    · rw [add_frames_evict n s L hb hL]
      simp only [bufSamples, Option.getD_some]
      omega
    · rw [add_frames_keep n s L hb hL]
      simp only [bufSamples, Option.getD_some]
      omega

/-- Witness for C8 at a concrete state. -/
theorem claim8_witness :
    bufSamples (add_frames 16000 { initState with bufLen := some 720000 })
      ≤ 45 * RATE + 16000 :=
  claim8_thm { initState with bufLen := some 720000 } 16000 16000
    (by norm_num [bufSamples, RATE]) le_rfl (by norm_num [RATE])

/-! ### Claim C1 -/

/-- C1 counterexample: 46 s of audio arrives before the recognition loop
has advanced the cursor.  The next append evicts 30 s starting at the
buffer origin — which equals `cursorOffset` — so samples at and after the
cursor are discarded, and afterwards `cursorOffset < bufferOriginOffset`
in a reachable state. -/
theorem claim1_cex :
    Reachable (add_frames 16000 (add_frames 736000 initState)) ∧
    (add_frames 16000 (add_frames 736000 initState)).timestamp_offset
      < (add_frames 16000 (add_frames 736000 initState)).frames_offset ∧
    evictedSamples (add_frames 736000 initState) = 30 * RATE ∧
    (add_frames 736000 initState).frames_offset
      = (add_frames 736000 initState).timestamp_offset := by
  refine ⟨Reachable.ingest 16000 (Reachable.ingest 736000 Reachable.init),
    ?_, by decide, rfl⟩
  show (0 : ℚ) < 0 + 45
  norm_num

/-- C1 (amended): the inequality `bufferOriginOffset ≤ cursorOffset` is not
an invariant of reachable states, but it is preserved by an append whenever
the cursor leads the origin by at least the 45 s origin jump; in that case
every sample the eviction discards lies strictly before the cursor. -/
theorem claim1_thm (s : SessionState) (n : ℕ)
    (h : s.frames_offset + 45 ≤ s.timestamp_offset) :
    (add_frames n s).frames_offset ≤ (add_frames n s).timestamp_offset ∧
    ∀ i : ℕ, i < evictedSamples s →
      s.frames_offset + (i : ℚ) / (RATE : ℚ) < s.timestamp_offset := by
  constructor
  · rcases hb : s.bufLen with _ | L
    · rw [add_frames_none n s hb]
      dsimp only
      linarith
    · by_cases hL : 45 * RATE < L
      · rw [add_frames_evict n s L hb hL]
        dsimp only
        linarith
      · rw [add_frames_keep n s L hb hL]
        dsimp only
        linarith
  · intro i hi
    have hlt : i < 30 * RATE := lt_of_lt_of_le hi (evictedSamples_le s)
    have hq : (i : ℚ) / (RATE : ℚ) < 45 := by
      rw [div_lt_iff₀ (by norm_num [RATE] : (0:ℚ) < (RATE : ℚ))]
      have : (i : ℚ) < ((30 * RATE : ℕ) : ℚ) := by exact_mod_cast hlt
      calc (i : ℚ) < ((30 * RATE : ℕ) : ℚ) := this
        _ ≤ 45 * (RATE : ℚ) := by norm_num [RATE]
    linarith

/-- Witness for C1 at a concrete state. -/
theorem claim1_witness :
    (add_frames 0 { initState with bufLen := some 736000, timestamp_offset := 45 }).frames_offset
      ≤ (add_frames 0 { initState with bufLen := some 736000, timestamp_offset := 45 }).timestamp_offset ∧
    ∀ i : ℕ,
      i < evictedSamples { initState with bufLen := some 736000, timestamp_offset := 45 } →
      ({ initState with bufLen := some 736000, timestamp_offset := 45 } : SessionState).frames_offset
          + (i : ℚ) / (RATE : ℚ)
        < ({ initState with bufLen := some 736000, timestamp_offset := 45 } : SessionState).timestamp_offset :=
  claim1_thm { initState with bufLen := some 736000, timestamp_offset := 45 } 0
    (by norm_num [initState])

/-! ### Claim C6 -/

/-- C6 counterexample: an empty-result cycle on a session whose previous
provisional candidate `prev_out = "hello"` is non-empty and whose repeat
counter is 3 leaves both untouched: the repeat counter is not reset and the
remembered candidate is not updated. -/
theorem claim6_cex :
    (cycle [] 0
        { initState with bufLen := some 32000, text := ["hi"],
                         prev_out := "hello", same_output_threshold := 3 }).1.prev_out
      = "hello" ∧
    (cycle [] 0
        { initState with bufLen := some 32000, text := ["hi"],
                         prev_out := "hello", same_output_threshold := 3 }).1.same_output_threshold
      = 3 ∧
    ("hello" : String) ≠ "" ∧ (3 : ℕ) ≠ 0 := by
  obtain ⟨h1, h2, -⟩ := cycle_nil_stall_state 0
    { initState with bufLen := some 32000, text := ["hi"],
                     prev_out := "hello", same_output_threshold := 3 }
  exact ⟨h1, h2, by decide, by decide⟩

/-- C6 (amended): repeat-stall detection does not run on empty-result
cycles.  `update_segments` is invoked only when the engine returns at least
one segment; on a cycle with no segments the remembered candidate
`prev_out`, the repeat counter `same_output_threshold`, and `current_out`
are all left unchanged. -/
theorem claim6_thm (now : ℚ) (s : SessionState) :
    (cycle [] now s).1.prev_out = s.prev_out ∧
    (cycle [] now s).1.same_output_threshold = s.same_output_threshold ∧
    (cycle [] now s).1.current_out = s.current_out :=
  cycle_nil_stall_state now s

/-! ### Reduction lemmas for `update_segments` -/

lemma getLastD_one {α : Type} (a d : α) : List.getLastD [a] d = a := rfl

lemma getLastD_pair {α : Type} (a b d : α) : List.getLastD [a, b] d = b := rfl

/-- A single-segment result without promotion: the tail becomes the new
candidate, the counter is updated, nothing is committed, the cursor stays. -/
lemma update_segments_one_keep (g : Segment) (dur : ℚ) (s : SessionState)
    (h : ¬ 5 < (if pyStrip g.text = pyStrip s.prev_out ∧ g.text ≠ "" then
                  s.same_output_threshold + 1 else 0)) :
    update_segments [g] dur s =
      ({ s with current_out := g.text, prev_out := g.text,
                same_output_threshold :=
                  (if pyStrip g.text = pyStrip s.prev_out ∧ g.text ≠ "" then
                    s.same_output_threshold + 1 else 0) },
       fill_output s.text g.text, []) := by
  unfold update_segments
  simp only [List.dropLast, List.getLastD, List.getLast, List.map, List.getLast?,
    Option.map, Option.getD, List.append_nil]
  rw [if_neg h]
  simp

/-- A single-segment result with promotion and a fresh last committed line:
the candidate is committed, the cursor advances by the whole window. -/
lemma update_segments_one_promo_commit (g : Segment) (dur : ℚ) (s : SessionState)
    (h1 : pyStrip g.text = pyStrip s.prev_out) (h2 : g.text ≠ "")
    (h3 : 5 ≤ s.same_output_threshold)
    (h4 : s.text = [] ∨ pyLower (pyStrip (s.text.getLastD "")) ≠ pyLower (pyStrip g.text)) :
    update_segments [g] dur s =
      ({ s with text := s.text ++ [g.text], current_out := "",
                same_output_threshold := 0,
                timestamp_offset := s.timestamp_offset + dur },
       fill_output (s.text ++ [g.text]) "",
       [{ start := s.timestamp_offset, end_ := s.timestamp_offset + dur,
          text := g.text }]) := by
  unfold update_segments
  simp only [List.dropLast, getLastD_one, List.map, List.getLast?,
    Option.map, Option.getD, List.append_nil]
  rw [if_pos (⟨h1, h2⟩ : pyStrip g.text = pyStrip s.prev_out ∧ g.text ≠ "")]
  rw [if_pos (by omega : 5 < s.same_output_threshold + 1)]
  simp only [if_pos h4]
  simp

/-- A single-segment result with promotion but a duplicate last committed
line: nothing is committed or emitted, yet the cursor still advances by the
whole window, the candidate is cleared and the counter reset. -/
lemma update_segments_one_promo_skip (g : Segment) (dur : ℚ) (s : SessionState)
    (h1 : pyStrip g.text = pyStrip s.prev_out) (h2 : g.text ≠ "")
    (h3 : 5 ≤ s.same_output_threshold)
    (h4 : ¬ (s.text = [] ∨ pyLower (pyStrip (s.text.getLastD "")) ≠ pyLower (pyStrip g.text))) :
    update_segments [g] dur s =
      ({ s with current_out := "", same_output_threshold := 0,
                timestamp_offset := s.timestamp_offset + dur },
       fill_output s.text "", []) := by
  unfold update_segments
  simp only [List.dropLast, getLastD_one, List.map, List.getLast?,
    Option.map, Option.getD, List.append_nil]
  rw [if_pos (⟨h1, h2⟩ : pyStrip g.text = pyStrip s.prev_out ∧ g.text ≠ "")]
  rw [if_pos (by omega : 5 < s.same_output_threshold + 1)]
  simp only [if_neg h4]

/-- A two-segment result without promotion: the first segment is committed
with clamped end offset, the cursor advances to that end offset, and the
second segment becomes the provisional candidate. -/
lemma update_segments_two (a b : Segment) (dur : ℚ) (s : SessionState)
    (h : ¬ 5 < (if pyStrip b.text = pyStrip s.prev_out ∧ b.text ≠ "" then
                  s.same_output_threshold + 1 else 0)) :
    update_segments [a, b] dur s =
      ({ s with text := s.text ++ [a.text], current_out := b.text,
                prev_out := b.text,
                same_output_threshold :=
                  (if pyStrip b.text = pyStrip s.prev_out ∧ b.text ≠ "" then
                    s.same_output_threshold + 1 else 0),
                timestamp_offset := s.timestamp_offset + min dur a.end_ },
       fill_output (s.text ++ [a.text]) b.text,
       [{ start := s.timestamp_offset + a.start,
          end_ := s.timestamp_offset + min dur a.end_, text := a.text }]) := by
  unfold update_segments
  simp only [List.dropLast, List.getLastD, List.getLast, List.map, List.getLast?,
    Option.map, Option.getD, List.append_nil]
  rw [if_neg h]

/-! ### Claim C5 -/

/-- C5: the engine returns `hello` on `[0,1]` and the incomplete tail
` world` on `[1,2]` for a 2-second window at cursor 0; with no stall
promotion pending, exactly the line `(0, 1, "hello")` is committed and
emitted, the cursor advances to 1 (the clamped end of the last complete
segment, not the tail's end), and the provisional candidate becomes
`" world"`. -/
theorem claim5_thm (s : SessionState) (h0 : s.timestamp_offset = 0)
    (h1 : ¬ (pyStrip " world" = pyStrip s.prev_out ∧ 5 ≤ s.same_output_threshold)) :
    (update_segments
        [{ text := "hello", start := 0, end_ := 1 },
         { text := " world", start := 1, end_ := 2 }] 2 s).1.text
      = s.text ++ ["hello"] ∧
    (update_segments
        [{ text := "hello", start := 0, end_ := 1 },
         { text := " world", start := 1, end_ := 2 }] 2 s).2.2
      = [{ start := 0, end_ := 1, text := "hello" }] ∧
    (update_segments
        [{ text := "hello", start := 0, end_ := 1 },
         { text := " world", start := 1, end_ := 2 }] 2 s).1.timestamp_offset = 1 ∧
    (update_segments
        [{ text := "hello", start := 0, end_ := 1 },
         { text := " world", start := 1, end_ := 2 }] 2 s).1.prev_out = " world" ∧
    (update_segments
        [{ text := "hello", start := 0, end_ := 1 },
         { text := " world", start := 1, end_ := 2 }] 2 s).1.current_out = " world" := by
  have h : ¬ 5 < (if pyStrip " world" = pyStrip s.prev_out ∧ (" world" : String) ≠ "" then
      s.same_output_threshold + 1 else 0) := by
    split
    · rename_i hc
      have : ¬ 5 ≤ s.same_output_threshold := fun hle => h1 ⟨hc.1, hle⟩
      omega
    · omega
  rw [update_segments_two { text := "hello", start := 0, end_ := 1 }
    { text := " world", start := 1, end_ := 2 } 2 s h]
  refine ⟨rfl, ?_, ?_, rfl, rfl⟩
  · have e1 : min (2:ℚ) 1 = 1 := by norm_num
    simp [h0, e1]
  · have e1 : min (2:ℚ) 1 = 1 := by norm_num
    simp [h0, e1]

/-- Witness for C5 at the initial session state. -/
theorem claim5_witness :
    (update_segments
        [{ text := "hello", start := 0, end_ := 1 },
         { text := " world", start := 1, end_ := 2 }] 2 initState).1.text
      = initState.text ++ ["hello"] ∧
    (update_segments
        [{ text := "hello", start := 0, end_ := 1 },
         { text := " world", start := 1, end_ := 2 }] 2 initState).2.2
      = [{ start := 0, end_ := 1, text := "hello" }] ∧
    (update_segments
        [{ text := "hello", start := 0, end_ := 1 },
         { text := " world", start := 1, end_ := 2 }] 2 initState).1.timestamp_offset = 1 ∧
    (update_segments
        [{ text := "hello", start := 0, end_ := 1 },
         { text := " world", start := 1, end_ := 2 }] 2 initState).1.prev_out = " world" ∧
    (update_segments
        [{ text := "hello", start := 0, end_ := 1 },
         { text := " world", start := 1, end_ := 2 }] 2 initState).1.current_out = " world" :=
  claim5_thm initState rfl (by decide)

/-! ### Claim C10 -/

/-- C10: when stall promotion triggers (counter already at least 5 and the
tail repeats the remembered candidate) but the last committed line equals
the candidate case-insensitively after trimming, nothing is appended or
emitted, yet the cursor advances by the full window duration, the
provisional candidate is cleared and the counter resets to 0. -/
theorem claim10_thm (s : SessionState) (txt : String) (st en dur : ℚ)
    (h1 : pyStrip txt = pyStrip s.prev_out) (h2 : txt ≠ "")
    (h3 : 5 ≤ s.same_output_threshold) (h4 : s.text ≠ [])
    (h5 : pyLower (pyStrip (s.text.getLastD "")) = pyLower (pyStrip txt)) :
    (update_segments [{ text := txt, start := st, end_ := en }] dur s).1.text
      = s.text ∧
    (update_segments [{ text := txt, start := st, end_ := en }] dur s).2.2 = [] ∧
    (update_segments [{ text := txt, start := st, end_ := en }] dur s).1.timestamp_offset
      = s.timestamp_offset + dur ∧
    (update_segments [{ text := txt, start := st, end_ := en }] dur s).1.same_output_threshold
      = 0 ∧
    (update_segments [{ text := txt, start := st, end_ := en }] dur s).1.current_out
      = "" ∧
    (update_segments [{ text := txt, start := st, end_ := en }] dur s).1.prev_out
      = s.prev_out := by
  have h4' : ¬ (s.text = [] ∨
      pyLower (pyStrip (s.text.getLastD "")) ≠ pyLower (pyStrip txt)) := by
    push_neg
    exact ⟨h4, h5⟩
  rw [update_segments_one_promo_skip { text := txt, start := st, end_ := en }
    dur s h1 h2 h3 h4']
  exact ⟨rfl, rfl, rfl, rfl, rfl, rfl⟩

/-- A stalled session whose last committed line `"Hi"` equals the repeated
candidate `"hi "` up to trimming and case. -/
def stallDupState : SessionState :=
  { initState with text := ["Hi"], prev_out := " hi", same_output_threshold := 7 }

/-- Witness for C10 at `stallDupState`. -/
theorem claim10_witness :
    (update_segments [{ text := "hi ", start := 0, end_ := 4 }] 4 stallDupState).1.text
      = stallDupState.text ∧
    (update_segments [{ text := "hi ", start := 0, end_ := 4 }] 4 stallDupState).2.2
      = [] ∧
    (update_segments [{ text := "hi ", start := 0, end_ := 4 }] 4 stallDupState).1.timestamp_offset
      = stallDupState.timestamp_offset + 4 ∧
    (update_segments [{ text := "hi ", start := 0, end_ := 4 }] 4 stallDupState).1.same_output_threshold
      = 0 ∧
    (update_segments [{ text := "hi ", start := 0, end_ := 4 }] 4 stallDupState).1.current_out
      = "" ∧
    (update_segments [{ text := "hi ", start := 0, end_ := 4 }] 4 stallDupState).1.prev_out
      = stallDupState.prev_out :=
  claim10_thm stallDupState "hi " 0 4 4
    (by decide) (by decide) (by norm_num [stallDupState]) (by decide) (by decide)

/-! ### Claim C4: stall promotion -/

lemma stallStep_new (txt : String) (dur : ℚ) (s : SessionState)
    (h : pyStrip txt ≠ pyStrip s.prev_out) :
    stallStep txt dur s =
      { s with current_out := txt, prev_out := txt, same_output_threshold := 0 } := by
  have hc : ¬ (pyStrip txt = pyStrip s.prev_out ∧ txt ≠ "") := fun hx => h hx.1
  unfold stallStep
  rw [update_segments_one_keep { text := txt, start := 0, end_ := dur } dur s
    (by dsimp only; simp [hc])]
  simp [hc]

lemma stallStep_inc (txt : String) (dur : ℚ) (s : SessionState)
    (h1 : pyStrip txt = pyStrip s.prev_out) (h2 : txt ≠ "")
    (h3 : s.same_output_threshold + 1 ≤ 5) :
    stallStep txt dur s =
      { s with current_out := txt, prev_out := txt,
               same_output_threshold := s.same_output_threshold + 1 } := by
  have hc : pyStrip txt = pyStrip s.prev_out ∧ txt ≠ "" := ⟨h1, h2⟩
  unfold stallStep
  rw [update_segments_one_keep { text := txt, start := 0, end_ := dur } dur s
    (by dsimp only; simp only [if_pos hc]; omega)]
  simp [hc]

/-- C4 counterexample: feeding the fresh stabilizer the same non-empty
candidate `"hello"` on 6 consecutive cycles leaves the repeat counter at 5
(it does not exceed 5) and commits nothing. -/
theorem claim4_cex :
    ((stallStep "hello" 2)^[6] initState).same_output_threshold = 5 ∧
    ((stallStep "hello" 2)^[6] initState).text = [] ∧
    ¬ 5 < 5 := by
  refine ⟨?_, ?_, by omega⟩ <;> decide

/-- C4 (amended): seven consecutive cycles are needed: the first feeding
only remembers the candidate (`repeatCount` reset to 0), the next five
raise `repeatCount` to 5 without committing, and the seventh drives it past
5, causing exactly one commit of the candidate with an emitted line
spanning `[cursorOffset, cursorOffset + windowDuration]`, the cursor
advancing by the full `windowDuration` and the counter resetting to 0. -/
theorem claim4_thm (s : SessionState) (txt : String) (dur : ℚ)
    (h1 : pyStrip txt ≠ pyStrip s.prev_out) (h2 : txt ≠ "")
    (h3 : s.text = [] ∨ pyLower (pyStrip (s.text.getLastD "")) ≠ pyLower (pyStrip txt)) :
    (∀ i, i ≤ 6 → ((stallStep txt dur)^[i] s).text = s.text) ∧
    ((stallStep txt dur)^[6] s).same_output_threshold = 5 ∧
    update_segments [{ text := txt, start := 0, end_ := dur }] dur
        ((stallStep txt dur)^[6] s) =
      ({ s with text := s.text ++ [txt], current_out := "", prev_out := txt,
                same_output_threshold := 0,
                timestamp_offset := s.timestamp_offset + dur },
       fill_output (s.text ++ [txt]) "",
       [{ start := s.timestamp_offset, end_ := s.timestamp_offset + dur,
          text := txt }]) := by
  have e1 : (stallStep txt dur)^[1] s =
      { s with current_out := txt, prev_out := txt, same_output_threshold := 0 } := by
    rw [Function.iterate_one]
    exact stallStep_new txt dur s h1
  have e2 : (stallStep txt dur)^[2] s =
      { s with current_out := txt, prev_out := txt, same_output_threshold := 1 } := by
    rw [show (2:ℕ) = 1 + 1 from rfl, Function.iterate_succ_apply', e1]
    exact stallStep_inc txt dur _ rfl h2 (by dsimp only; omega)
  have e3 : (stallStep txt dur)^[3] s =
      { s with current_out := txt, prev_out := txt, same_output_threshold := 2 } := by
    rw [show (3:ℕ) = 2 + 1 from rfl, Function.iterate_succ_apply', e2]
    exact stallStep_inc txt dur _ rfl h2 (by dsimp only; omega)
  have e4 : (stallStep txt dur)^[4] s =
      { s with current_out := txt, prev_out := txt, same_output_threshold := 3 } := by
    rw [show (4:ℕ) = 3 + 1 from rfl, Function.iterate_succ_apply', e3]
    exact stallStep_inc txt dur _ rfl h2 (by dsimp only; omega)
  have e5 : (stallStep txt dur)^[5] s =
      { s with current_out := txt, prev_out := txt, same_output_threshold := 4 } := by
    rw [show (5:ℕ) = 4 + 1 from rfl, Function.iterate_succ_apply', e4]
    exact stallStep_inc txt dur _ rfl h2 (by dsimp only; omega)
  have e6 : (stallStep txt dur)^[6] s =
      { s with current_out := txt, prev_out := txt, same_output_threshold := 5 } := by
    rw [show (6:ℕ) = 5 + 1 from rfl, Function.iterate_succ_apply', e5]
    exact stallStep_inc txt dur _ rfl h2 (by dsimp only; omega)
  refine ⟨?_, by rw [e6], ?_⟩
  · intro i hi
    interval_cases i
    · rfl
    · rw [e1]
    · rw [e2]
    · rw [e3]
    · rw [e4]
    · rw [e5]
    · rw [e6]
  · rw [e6]
    exact update_segments_one_promo_commit { text := txt, start := 0, end_ := dur }
      dur _ rfl h2 (by dsimp only; omega) (by simpa using h3)

/-- Witness for C4 at the initial session state with candidate `"hello"`
and 2-second windows. -/
theorem claim4_witness :
    (∀ i, i ≤ 6 → ((stallStep "hello" 2)^[i] initState).text = initState.text) ∧
    ((stallStep "hello" 2)^[6] initState).same_output_threshold = 5 ∧
    update_segments [{ text := "hello", start := 0, end_ := 2 }] 2
        ((stallStep "hello" 2)^[6] initState) =
      ({ initState with text := initState.text ++ ["hello"], current_out := "",
                        prev_out := "hello", same_output_threshold := 0,
                        timestamp_offset := initState.timestamp_offset + 2 },
       fill_output (initState.text ++ ["hello"]) "",
       [{ start := initState.timestamp_offset,
          end_ := initState.timestamp_offset + 2, text := "hello" }]) :=
  claim4_thm initState "hello" 2 (by decide) (by decide) (Or.inl rfl)

/-! ### Claim C9: the output formatter -/

lemma join_concat (a : List String) (x : String) :
    String.join (a ++ [x]) = String.join a ++ x := by
  simp [String.join, List.foldl_append]

/-- The source's forward fold with reset-on-sentinel equals the spec's
backward walk that stops at the first sentinel. -/
lemma foldl_reset_eq (l : List String) :
    l.foldl (fun acc seg => if seg = "" then "" else acc ++ seg) "" =
      String.join ((l.reverse.takeWhile (fun seg => seg != "")).reverse) := by
  induction l using List.reverseRecOn with
  | nil => rfl
  | append_singleton a x ih =>
    rw [List.foldl_append, List.reverse_append]
    by_cases hx : x = ""
    · subst hx
      simp [String.join]
    · have hb : (x != "") = true := by simpa using hx
      simp only [List.reverse_cons, List.reverse_nil, List.nil_append,
        List.singleton_append, List.takeWhile_cons, hb, if_true,
        List.foldl_cons, List.foldl_nil, if_neg hx, join_concat, ih]

/-- The 63-character committed line of the formatting scenario. -/
def longLine : String :=
  "a very long sentence exceeding fifty characters in total length"

/-- C9: `fill_output` coincides with the spec's OutputFormatter pipeline
(`specRender`: last two committed entries, discard everything behind an
empty-string sentinel walking backward, concatenate with the provisional
text, wrap at width 50, join the last two wrapped lines with a space); in
particular, with `committedLines = [longLine, ""]` the long first entry is
discarded and rendering agrees with an empty committed list. -/
theorem claim9_thm :
    (∀ text output, fill_output text output = specRender text output) ∧
    (∀ output, fill_output [longLine, ""] output = fill_output [] output) := by
  constructor
  · intro text output
    simp only [fill_output, specRender]
    have hidx : text.length - min text.length 2 = text.length - 2 := by omega
    rw [hidx, foldl_reset_eq]
  · intro output
    rfl

/-! ### Claim C7: the pause sentinel -/

lemma getLastD_ne_imp (l : List String) (h : l.getLastD "" ≠ "") : l ≠ [] := by
  intro he
  subst he
  exact h rfl

lemma emptyCycle_none_t_start (now : ℚ) (s : SessionState) (h : s.t_start = none) :
    (emptyCycle now s).1.t_start = some now := by
  simp only [emptyCycle, h, Option.getD_none]
  split <;> rfl

lemma emptyCycle_none_text (now : ℚ) (s : SessionState) (h : s.t_start = none) :
    (emptyCycle now s).1.text = s.text := by
  have h3 : ¬ (3:ℚ) < now - now := by
    rw [sub_self]
    norm_num
  simp only [emptyCycle, h, Option.getD_none]
  rw [if_neg (fun hc => h3 hc.2.2)]

lemma emptyCycle_some_t_start (now t0 : ℚ) (s : SessionState)
    (h : s.t_start = some t0) :
    (emptyCycle now s).1.t_start = some t0 := by
  simp only [emptyCycle, h, Option.getD_some]
  split <;> rfl

lemma emptyCycle_some_text (now t0 : ℚ) (s : SessionState)
    (h : s.t_start = some t0) :
    (emptyCycle now s).1.text =
      if s.text.getLastD "" ≠ "" ∧ 3 < now - t0 then s.text ++ [""] else s.text := by
  simp only [emptyCycle, h, Option.getD_some]
  split
  · rename_i hc
    rw [if_pos (show s.text.getLastD "" ≠ "" ∧ 3 < now - t0 from ⟨hc.2.1, hc.2.2⟩)]
  · rename_i hc
    by_cases h1 : s.text.getLastD "" ≠ "" ∧ 3 < now - t0
    · exact absurd ⟨getLastD_ne_imp _ h1.1, h1.1, h1.2⟩ hc
    · rw [if_neg h1]

lemma emptyRun_cons (u : ℚ) (us : List ℚ) (s : SessionState) :
    emptyRun (u :: us) s = emptyRun us (emptyCycle u s).1 := rfl

/-- During a run of empty-result cycles whose silence clock is already
running (started at `t0`), exactly one sentinel is appended, and exactly
when the last committed line was non-empty and some cycle happens more
than 3 seconds after `t0`. -/
lemma emptyRun_some (us : List ℚ) (t0 : ℚ) (s : SessionState)
    (h : s.t_start = some t0) :
    (emptyRun us s).text = s.text ++
      (if s.text.getLastD "" ≠ "" ∧ ∃ u ∈ us, 3 < u - t0 then [""] else []) ∧
    (emptyRun us s).t_start = some t0 := by
  induction us generalizing s with
  | nil =>
    simp only [emptyRun, List.foldl_nil]
    rw [if_neg (by
      rintro ⟨-, u, hu, -⟩
      exact absurd hu (List.not_mem_nil u))]
    exact ⟨(List.append_nil s.text).symm, h⟩
  | cons u us ih =>
    rw [emptyRun_cons]
    have ht' : (emptyCycle u s).1.t_start = some t0 := emptyCycle_some_t_start u t0 s h
    obtain ⟨ha, hb⟩ := ih (emptyCycle u s).1 ht'
    refine ⟨?_, hb⟩
    rw [ha, emptyCycle_some_text u t0 s h]
    by_cases hl : s.text.getLastD "" ≠ ""
    · by_cases hu : (3:ℚ) < u - t0
      · rw [if_pos (show s.text.getLastD "" ≠ "" ∧ 3 < u - t0 from ⟨hl, hu⟩)]
        rw [if_neg (show ¬ ((s.text ++ [""]).getLastD "" ≠ "" ∧ ∃ v ∈ us, 3 < v - t0) by
          rintro ⟨hcontra, -⟩
          rw [List.getLastD_concat] at hcontra
          exact hcontra rfl)]
        rw [if_pos (show s.text.getLastD "" ≠ "" ∧ ∃ v ∈ u :: us, 3 < v - t0 from
          ⟨hl, u, List.mem_cons_self u us, hu⟩)]
        simp
      · rw [if_neg (show ¬ (s.text.getLastD "" ≠ "" ∧ 3 < u - t0) by
          rintro ⟨-, hcontra⟩
          exact hu hcontra)]
        by_cases he : ∃ v ∈ us, (3:ℚ) < v - t0
        · rw [if_pos (show s.text.getLastD "" ≠ "" ∧ ∃ v ∈ us, 3 < v - t0 from ⟨hl, he⟩)]
          rw [if_pos (show s.text.getLastD "" ≠ "" ∧ ∃ v ∈ u :: us, 3 < v - t0 from ?_)]
          obtain ⟨v, hv, hv3⟩ := he
          exact ⟨hl, v, List.mem_cons_of_mem u hv, hv3⟩
        · rw [if_neg (show ¬ (s.text.getLastD "" ≠ "" ∧ ∃ v ∈ us, 3 < v - t0) by
            rintro ⟨-, hcontra⟩
            exact he hcontra)]
          rw [if_neg (show ¬ (s.text.getLastD "" ≠ "" ∧ ∃ v ∈ u :: us, 3 < v - t0) by
            rintro ⟨-, v, hv, hv3⟩
            rcases List.mem_cons.mp hv with rfl | hv'
            · exact hu hv3
            · exact he ⟨v, hv', hv3⟩)]
    · rw [if_neg (fun hc => hl hc.1), if_neg (fun hc => hl hc.1),
        if_neg (fun hc => hl hc.1)]

/-- C7: over a whole run of consecutive empty-result cycles (at wall-clock
times `t :: ts`, the first of which starts the silence clock), at most one
empty-string sentinel is appended to `committedLines`, and one is appended
exactly when some cycle of the run happens more than 3 seconds after the
run began and the last committed line at that moment is non-empty. -/
theorem claim7_thm (s : SessionState) (t : ℚ) (ts : List ℚ)
    (h : s.t_start = none) :
    (emptyRun (t :: ts) s).text = s.text ++
      (if s.text.getLastD "" ≠ "" ∧ ∃ u ∈ ts, 3 < u - t then [""] else []) := by
  rw [emptyRun_cons]
  have h1 : (emptyCycle t s).1.t_start = some t := emptyCycle_none_t_start t s h
  have h2 : (emptyCycle t s).1.text = s.text := emptyCycle_none_text t s h
  obtain ⟨ha, -⟩ := emptyRun_some ts t (emptyCycle t s).1 h1
  rw [ha, h2]

/-- Witness for C7: a 2-cycle silence run at times 0 and 4 after the
committed line `"hi"` appends exactly one sentinel. -/
theorem claim7_witness :
    (emptyRun [0, 4] { initState with text := ["hi"] }).text =
      ({ initState with text := ["hi"] } : SessionState).text ++
      (if ({ initState with text := ["hi"] } : SessionState).text.getLastD "" ≠ "" ∧
          ∃ u ∈ [(4:ℚ)], 3 < u - 0 then [""] else []) :=
  claim7_thm { initState with text := ["hi"] } 0 [4] rfl

/-! ### Claim C3: the 25-second window guard -/

lemma pyInt_eval (q : ℚ) (a : ℤ) (h : q = (a:ℚ)) : pyInt q = a := by
  rw [h, pyInt_intCast]

lemma pySliceLen_le (i : ℤ) (L : ℕ) : pySliceLen i L ≤ L := by
  unfold pySliceLen
  split <;> omega

lemma windowSamples_some (s : SessionState) (L : ℕ) (hL : s.bufLen = some L) :
    windowSamples s =
      pySliceLen (pyInt (max 0 ((s.timestamp_offset - s.frames_offset) * (RATE:ℚ)))) L := by
  simp only [windowSamples, hL]

lemma cycleClip_clip (s : SessionState) (L : ℕ) (hL : s.bufLen = some L)
    (hcl : 25 * RATE <
      pySliceLen (pyInt ((s.timestamp_offset - s.frames_offset) * (RATE:ℚ))) L) :
    cycleClip s =
      { s with timestamp_offset := s.frames_offset + (L:ℚ)/(RATE:ℚ) - 5 } := by
  simp only [cycleClip, hL]
  rw [if_pos hcl]

lemma cycleClip_noclip (s : SessionState) (L : ℕ) (hL : s.bufLen = some L)
    (hcl : ¬ 25 * RATE <
      pySliceLen (pyInt ((s.timestamp_offset - s.frames_offset) * (RATE:ℚ))) L) :
    cycleClip s = s := by
  simp only [cycleClip, hL]
  rw [if_neg hcl]

/-- C3 (amended): the 25-second bound on the submitted window holds on
every cycle in which the cursor has not fallen behind the buffer origin:
if `bufferOriginOffset ≤ cursorOffset` then the window sliced after the
overflow guard holds at most `25 * RATE` samples (the guard either leaves
a window already within the bound, or force-advances the cursor to 5
seconds before the buffer end). -/
theorem claim3_thm (s : SessionState) (L : ℕ) (hL : s.bufLen = some L)
    (h : s.frames_offset ≤ s.timestamp_offset) :
    windowSamples (cycleClip s) ≤ 25 * RATE := by
  have hd0 : 0 ≤ (s.timestamp_offset - s.frames_offset) * (RATE:ℚ) :=
    mul_nonneg (sub_nonneg.mpr h) (by norm_num [RATE])
  by_cases hcl : 25 * RATE <
      pySliceLen (pyInt ((s.timestamp_offset - s.frames_offset) * (RATE:ℚ))) L
  · rw [cycleClip_clip s L hL hcl,
      windowSamples_some
        { s with timestamp_offset := s.frames_offset + (L:ℚ)/(RATE:ℚ) - 5 } L hL]
    have hL25 : 25 * RATE < L := lt_of_lt_of_le hcl (pySliceLen_le _ L)
    have h5 : 5 * RATE ≤ L := by omega
    have hcast :
        (({ s with timestamp_offset := s.frames_offset + (L:ℚ)/(RATE:ℚ) - 5
            } : SessionState).timestamp_offset -
           ({ s with timestamp_offset := s.frames_offset + (L:ℚ)/(RATE:ℚ) - 5
            } : SessionState).frames_offset) * (RATE:ℚ)
          = ((L - 5*RATE : ℕ) : ℚ) := by
      dsimp only
      have hR : (RATE:ℚ) ≠ 0 := by norm_num [RATE]
      push_cast [h5]
      field_simp
      ring
    rw [hcast, max_eq_right (Nat.cast_nonneg _), pyInt_natCast]
    unfold pySliceLen
    rw [if_neg (not_lt.mpr (Int.natCast_nonneg _)), Int.toNat_natCast]
    omega
  · rw [cycleClip_noclip s L hL hcl, windowSamples_some s L hL,
      max_eq_right hd0]
    exact le_of_not_lt hcl

/-- Witness for C3 at a 50-second buffer with the cursor at the origin:
the guard clips and the window is 5 seconds. -/
theorem claim3_witness :
    windowSamples (cycleClip { initState with bufLen := some 800000 }) ≤ 25 * RATE :=
  claim3_thm { initState with bufLen := some 800000 } 800000 rfl le_rfl

lemma cycle_empty_state (now : ℚ) (s : SessionState) (L : ℕ)
    (hL : s.bufLen = some L)
    (hdur : ¬ ((windowSamples (cycleClip s) : ℚ)/(RATE:ℚ) < 1)) :
    (cycle [] now s).1 = (emptyCycle now (cycleClip s)).1 := by
  simp only [cycle, hL]
  rw [if_neg hdur]
  simp

lemma emptyCycle_no_append (now : ℚ) (s : SessionState)
    (h : ¬ (s.text ≠ [] ∧ s.text.getLastD "" ≠ "" ∧ 3 < now - s.t_start.getD now)) :
    (emptyCycle now s).1 = { s with t_start := some (s.t_start.getD now) } := by
  simp only [emptyCycle]
  rw [if_neg h]

/-- The C3 counterexample trace, state A: 46 seconds of audio have arrived
(no eviction yet), the recognition loop has not run. -/
def c3A : SessionState :=
  { bufLen := some 736000, frames_offset := 0, timestamp_offset := 0,
    text := [], current_out := "", prev_out := "", same_output_threshold := 0,
    t_start := none }

/-- State B: one empty-result cycle ran on the 46 s buffer; the overflow
guard force-advanced the cursor to 41 s (5 s before the buffer end) and
the silence clock started. -/
def c3B : SessionState :=
  { c3A with timestamp_offset := c3A.frames_offset + ((736000:ℕ):ℚ)/(RATE:ℚ) - 5,
             t_start := some 0 }

/-- State C: a 1-second frame arrives; the eviction drops 30 s and jumps
the origin to 45 s, overtaking the 41 s cursor. -/
def c3C : SessionState :=
  { c3B with frames_offset := c3B.frames_offset + 45, bufLen := some 272000 }

/-- State D: ten more seconds of audio arrive; the buffer holds 27 s while
the cursor sits 4 s behind the origin. -/
def c3D : SessionState :=
  { c3C with bufLen := some 432000 }

lemma c3_stepA : add_frames 736000 initState = c3A := by
  rw [add_frames_none 736000 initState rfl]
  rfl

lemma c3_clipA : cycleClip c3A =
    { c3A with timestamp_offset := c3A.frames_offset + ((736000:ℕ):ℚ)/(RATE:ℚ) - 5 } := by
  apply cycleClip_clip c3A 736000 rfl
  rw [pyInt_eval ((c3A.timestamp_offset - c3A.frames_offset) * (RATE:ℚ)) 0
    (by norm_num [c3A])]
  decide

lemma c3_winB :
    windowSamples { c3A with
      timestamp_offset := c3A.frames_offset + ((736000:ℕ):ℚ)/(RATE:ℚ) - 5 } = 80000 := by
  rw [windowSamples_some _ 736000 rfl]
  have e2 : (({ c3A with
      timestamp_offset := c3A.frames_offset + ((736000:ℕ):ℚ)/(RATE:ℚ) - 5
      } : SessionState).timestamp_offset -
      ({ c3A with
      timestamp_offset := c3A.frames_offset + ((736000:ℕ):ℚ)/(RATE:ℚ) - 5
      } : SessionState).frames_offset) * (RATE:ℚ) = ((656000:ℤ):ℚ) := by
    dsimp only
    norm_num [c3A, RATE]
  rw [e2, max_eq_right (by norm_num : (0:ℚ) ≤ ((656000:ℤ):ℚ)), pyInt_intCast]
  decide

lemma c3_stepB : (cycle [] 0 c3A).1 = c3B := by
  have hdur : ¬ ((windowSamples (cycleClip c3A) : ℚ)/(RATE:ℚ) < 1) := by
    rw [c3_clipA, c3_winB]
    norm_num [RATE]
  rw [cycle_empty_state 0 c3A 736000 rfl hdur, c3_clipA,
    emptyCycle_no_append 0 _ (fun hc => hc.1 rfl)]
  rfl

lemma c3_stepC : add_frames 16000 c3B = c3C := by
  rw [add_frames_evict 16000 c3B 736000 rfl (by decide)]
  rfl

lemma c3_stepD : add_frames 160000 c3C = c3D := by
  rw [add_frames_keep 160000 c3C 272000 rfl (by decide)]
  rfl

lemma c3D_offsets : (c3D.timestamp_offset - c3D.frames_offset) * (RATE:ℚ)
    = ((-64000:ℤ):ℚ) := by
  norm_num [c3D, c3C, c3B, c3A, RATE]

lemma c3D_noclip : cycleClip c3D = c3D := by
  apply cycleClip_noclip c3D 432000 rfl
  rw [pyInt_eval _ _ c3D_offsets]
  decide

lemma c3D_window : windowSamples c3D = 432000 := by
  rw [windowSamples_some c3D 432000 rfl]
  rw [max_eq_left (by rw [c3D_offsets]; norm_num)]
  rw [pyInt_eval (0 : ℚ) 0 (by norm_num)]
  decide

/-- C3 counterexample: a reachable session (46 s of silence, one guarded
empty cycle, a 1-second frame that triggers the eviction, then 10 more
seconds of audio) reaches state `c3D`, where the overflow guard does not
fire (the negative cursor-minus-origin offset makes the guard check a
Python tail slice of only 4 s) yet the slice actually submitted to the
engine is the whole 27-second buffer: 432000 samples > 25 * RATE, and the
window passes the 1-second minimum so it really is submitted. -/
theorem claim3_cex :
    Reachable c3D ∧
    cycleClip c3D = c3D ∧
    windowSamples (cycleClip c3D) = 432000 ∧
    25 * RATE < windowSamples (cycleClip c3D) ∧
    ¬ ((windowSamples (cycleClip c3D) : ℚ)/(RATE:ℚ) < 1) := by
  have hwf : SegsWF [] (cycleDuration c3A) := by
    intro g hg
    exact absurd hg (List.not_mem_nil g)
  have r1 : Reachable c3A := by
    rw [← c3_stepA]
    exact Reachable.ingest 736000 Reachable.init
  have r2 : Reachable c3B := by
    rw [← c3_stepB]
    exact Reachable.cyc [] 0 hwf r1
  have r3 : Reachable c3C := by
    rw [← c3_stepC]
    exact Reachable.ingest 16000 r2
  have r4 : Reachable c3D := by
    rw [← c3_stepD]
    exact Reachable.ingest 160000 r3
  refine ⟨r4, c3D_noclip, ?_, ?_, ?_⟩
  · rw [c3D_noclip, c3D_window]
  · rw [c3D_noclip, c3D_window]
    decide
  · rw [c3D_noclip, c3D_window]
    norm_num [RATE]

end WhisperLive
